import Mathlib

/-!
Verification development for the voice-driven grid repository.

The repository's core is `parseVoiceCommand` (the canonical, richer variant
with the `applyToSub` / "toggle cell N" extension and the box check/uncheck
vocabulary), a pure function from a transcript string to a grid action, plus
the grid state reducer (`setActiveCell` and friends) and the application's
command dispatcher (`handleVoiceCommand`).

The JavaScript regular expressions are embedded as hand-written matchers over
`List Char`.  Each matcher follows its source regex literally: a leading `\b`
is a word-boundary test against the previous character, alternations are
tried in source order with the full continuation (proper backtracking),
`\s+` is a greedy run of whitespace, and a trailing `\b` after a word
character demands end-of-string or a non-word character.  Scanning for a
match tries start positions left to right (leftmost match), carrying the
previous character for word-boundary tests.

Modelling notes kept throughout:
* strings are processed as `List Char`; `normalize` lowercases ASCII letters
  (the JS `toLowerCase` on the command vocabulary is ASCII),
  trims, and collapses whitespace runs, exactly as
  `text.toLowerCase().trim().replace(/\s+/g, ' ')`;
* JS numbers appearing as indices are `Nat` in the parser (the parser only
  ever produces non-negative indices) and `Int` in the reducer (where
  `activeCellIndex - 1` can go below zero before clamping).
-/

namespace VoiceGrid

/-! ## Constants from types.ts -/

def MAIN_COLS : Nat := 12
def MAIN_ROWS : Nat := 2
def MAIN_COUNT : Nat := MAIN_COLS * MAIN_ROWS
def SUB_PER_CELL : Nat := 9

/-! ## Character classes (JS regex `\s`, `\d`, `[1-9]`, `\w`) -/

/-- JS `\s` restricted to the ASCII whitespace forms. -/
def isWS (c : Char) : Bool :=
  c.toNat = 32 || c.toNat = 9 || c.toNat = 10 || c.toNat = 13 || c.toNat = 11 || c.toNat = 12

/-- JS `\d`: the digits 0-9. -/
def isDigitCh (c : Char) : Bool := 48 ≤ c.toNat && c.toNat ≤ 57

/-- The regex class `[1-9]`. -/
def isNZDigit (c : Char) : Bool := 49 ≤ c.toNat && c.toNat ≤ 57

/-- JS `\w`: `[A-Za-z0-9_]`, used for `\b` word-boundary tests. -/
def isWordCh (c : Char) : Bool :=
  (97 ≤ c.toNat && c.toNat ≤ 122) || (65 ≤ c.toNat && c.toNat ≤ 90) || isDigitCh c || c.toNat = 95

/-- Numeric value of a digit character. -/
def digitVal (c : Char) : Nat := c.toNat - 48

/-- ASCII lowercasing of one character (JS `toLowerCase` on the parser's
ASCII command vocabulary). -/
def toLowerCh (c : Char) : Char :=
  if 65 ≤ c.toNat ∧ c.toNat ≤ 90 then Char.ofNat (c.toNat + 32) else c

/-- Word-character test on an optional previous character (edges count as
non-word). -/
def isWordOpt : Option Char → Bool
  | none => false
  | some c => isWordCh c

/-- A trailing `\b` directly after a word character: holds at end of input or
before a non-word character. -/
def bEnd : List Char → Bool
  | [] => true
  | c :: _ => !isWordCh c

/-! ## normalize (parseVoiceCommand.ts)
`text.toLowerCase().trim().replace(/\s+/g, ' ')` -/

/-- Collapse every maximal run of whitespace to a single space. -/
def squeezeWS : List Char → List Char
  | [] => []
  | [c] => [if isWS c then ' ' else c]
  | c :: c' :: cs =>
    if isWS c && isWS c' then squeezeWS (c' :: cs)
    else (if isWS c then ' ' else c) :: squeezeWS (c' :: cs)

def trimWS (s : List Char) : List Char :=
  ((s.dropWhile isWS).reverse.dropWhile isWS).reverse

def normalize (s : List Char) : List Char :=
  squeezeWS (trimWS (s.map toLowerCh))

/-! ## Matching primitives -/

/-- Match a literal word, returning the rest of the input. -/
def litCh : List Char → List Char → Option (List Char)
  | [], s => some s
  | _ :: _, [] => none
  | a :: as, b :: bs => if a = b then litCh as bs else none

/-- Greedy `\s+`: at least one whitespace character, consuming the whole run.
(Everywhere the source regexes use `\s+` the next regex atom matches only
non-whitespace, except in the sub-cell list capture which is handled by
`subCellsTail`, so the greedy run never needs to give characters back.) -/
def ws1 : List Char → Option (List Char)
  | c :: rest => if isWS c then some (rest.dropWhile isWS) else none
  | [] => none

/-- Proof-friendly `Option` alternative (first `some` wins). -/
def orElseO {α : Type} : Option α → Option α → Option α
  | some x, _ => some x
  | none, b => b

/-- Greedy `(\d{1,2})\b`: two digits then a word boundary, else one digit
then a word boundary, else fail; returns the captured number. -/
def d2b : List Char → Option Nat
  | [] => none
  | [c1] => if isDigitCh c1 then some (digitVal c1) else none
  | c1 :: c2 :: rest =>
    if !isDigitCh c1 then none
    else if isDigitCh c2 then
      if bEnd rest then some (digitVal c1 * 10 + digitVal c2) else none
    else if !isWordCh c2 then some (digitVal c1) else none

/-- `([1-9])\b`: one non-zero digit followed by a word boundary. -/
def nzDigB : List Char → Option Nat
  | [] => none
  | d :: rest => if isNZDigit d && bEnd rest then some (digitVal d) else none

/-- Greedy `(\d+)\b`: a maximal non-empty digit run followed by a word
boundary (a shorter run would end before a digit, where `\b` fails). -/
def digits1b (s : List Char) : Option Nat :=
  match s.takeWhile isDigitCh with
  | [] => none
  | ds =>
    if bEnd (s.dropWhile isDigitCh) then
      some (ds.foldl (fun a c => a * 10 + digitVal c) 0)
    else none

/-- Leftmost-match scan: try the matcher at every start position from the
left, tracking the previous character for word-boundary tests. -/
def scanP {α : Type} (m : Option Char → List Char → Option α) :
    Option Char → List Char → Option α
  | prev, [] => m prev []
  | prev, c :: rest =>
    match m prev (c :: rest) with
    | some v => some v
    | none => scanP m (some c) rest

def scanM {α : Type} (m : Option Char → List Char → Option α) (s : List Char) : Option α :=
  scanP m none s

/-- Word-boundary gate for a matcher whose regex starts with `\b`: the
boundary between the previous character and the first character of the
suffix. -/
def bStart (prev : Option Char) : List Char → Bool
  | [] => isWordOpt prev
  | c :: _ => isWordOpt prev != isWordCh c

/-- JS `String.includes` on char lists. -/
def isPrefixCh : List Char → List Char → Bool
  | [], _ => true
  | _ :: _, [] => false
  | a :: as, b :: bs => a = b && isPrefixCh as bs

def containsStr (w : List Char) : List Char → Bool
  | [] => isPrefixCh w []
  | c :: rest => isPrefixCh w (c :: rest) || containsStr w rest

/-! ## Regex matchers of the canonical parser (parseVoiceCommand.ts) -/

/-- The common suffix `\s+cell\b` of the two navigation regexes. -/
def cellWordTail (s : List Char) : Option Unit := do
  let s1 ← ws1 s
  let s2 ← litCh "cell".data s1
  if bEnd s2 then some () else none

/-- `\b(?:next|go\s+to\s+next)\s+cell\b` at one position. -/
def nextCellAt (prev : Option Char) (s : List Char) : Option Unit :=
  if bStart prev s then
    orElseO
      (do
        let s1 ← litCh "next".data s
        cellWordTail s1)
      (do
        let s1 ← litCh "go".data s
        let s2 ← ws1 s1
        let s3 ← litCh "to".data s2
        let s4 ← ws1 s3
        let s5 ← litCh "next".data s4
        cellWordTail s5)
  else none

/-- `\b(?:previous|prev|go\s+to\s+previous)\s+cell\b` at one position. -/
def prevCellAt (prev : Option Char) (s : List Char) : Option Unit :=
  if bStart prev s then
    orElseO
      (do
        let s1 ← litCh "previous".data s
        cellWordTail s1)
      (orElseO
        (do
          let s1 ← litCh "prev".data s
          cellWordTail s1)
        (do
          let s1 ← litCh "go".data s
          let s2 ← ws1 s1
          let s3 ← litCh "to".data s2
          let s4 ← ws1 s3
          let s5 ← litCh "previous".data s4
          cellWordTail s5))
  else none

/-- `\bselect\s+(?:block|cell)\s+(?:number\s+)?(\d{1,2})\b` at one position
(rule 3); returns the captured number. -/
def selectCellAt (prev : Option Char) (s : List Char) : Option Nat :=
  if bStart prev s then do
    let s1 ← litCh "select".data s
    let s2 ← ws1 s1
    let s3 ← orElseO (litCh "block".data s2) (litCh "cell".data s2)
    let s4 ← ws1 s3
    orElseO
      (do
        let s5 ← litCh "number".data s4
        let s6 ← ws1 s5
        d2b s6)
      (d2b s4)
  else none

/-- One alternative `w` of `([1-9]|one|…|nine)\b` with its trailing word
boundary, mapped through the digitMap value. -/
def wordB (w : String) (v : Nat) (s : List Char) : Option Nat := do
  let s1 ← litCh w.data s
  if bEnd s1 then some v else none

/-- The ordered alternation `([1-9]|one|two|…|nine)\b`, returning the
resolved number (`digitMap[word] ?? parseInt(digit)`). -/
def numWordB (s : List Char) : Option Nat :=
  orElseO (nzDigB s) (orElseO (wordB "one" 1 s) (orElseO (wordB "two" 2 s)
    (orElseO (wordB "three" 3 s) (orElseO (wordB "four" 4 s) (orElseO (wordB "five" 5 s)
    (orElseO (wordB "six" 6 s) (orElseO (wordB "seven" 7 s)
    (orElseO (wordB "eight" 8 s) (wordB "nine" 9 s)))))))))

/-- `\btoggle\s+cell\s+(?:number\s+)?([1-9]|one|…|nine)\b` at one position
(rule 4). -/
def toggleCellAt (prev : Option Char) (s : List Char) : Option Nat :=
  if bStart prev s then do
    let s1 ← litCh "toggle".data s
    let s2 ← ws1 s1
    let s3 ← litCh "cell".data s2
    let s4 ← ws1 s3
    orElseO
      (do
        let s5 ← litCh "number".data s4
        let s6 ← ws1 s5
        numWordB s6)
      (numWordB s4)
  else none

/-- `(?:cell|block)\s+(\d{1,2})\b`, the mandatory-keyword core of the
cell-number regex. -/
def cellKeyTail (s : List Char) : Option Nat :=
  orElseO
    (do
      let s1 ← litCh "cell".data s
      let s2 ← ws1 s1
      d2b s2)
    (do
      let s1 ← litCh "block".data s
      let s2 ← ws1 s1
      d2b s2)

/-- `\b(?:go\s+to\s+)?(?:cell|block)\s+(\d{1,2})\b` at one position. -/
def cellNumAt (prev : Option Char) (s : List Char) : Option Nat :=
  if bStart prev s then
    orElseO
      (do
        let s1 ← litCh "go".data s
        let s2 ← ws1 s1
        let s3 ← litCh "to".data s2
        let s4 ← ws1 s3
        cellKeyTail s4)
      (cellKeyTail s)
  else none

/-- `\brow\s+(\d)\s+col(?:umn)?\s+(\d+)\b` at one position; returns the two
captured numbers. -/
def rowColAt (prev : Option Char) (s : List Char) : Option (Nat × Nat) :=
  if bStart prev s then do
    let s1 ← litCh "row".data s
    let s2 ← ws1 s1
    match s2 with
    | [] => none
    | d :: s3 =>
      if isDigitCh d then do
        let s4 ← ws1 s3
        let s5 ← litCh "col".data s4
        let col ← orElseO
          (do
            let s6 ← litCh "umn".data s5
            let s7 ← ws1 s6
            digits1b s7)
          (do
            let s7 ← ws1 s5
            digits1b s7)
        some (digitVal d, col)
      else none
  else none

/-- The `"row 1 column 3"` fallback of parseCellNumber:
`index = (row - 1) * 12 + (col - 1)` for row 1..2 and col 1..12. -/
def rowColFallback (n : List Char) : Option Nat :=
  match scanM rowColAt n with
  | some (row, col) =>
    if 1 ≤ row ∧ row ≤ 2 ∧ 1 ≤ col ∧ col ≤ 12 then some ((row - 1) * 12 + (col - 1))
    else none
  | none => none

/-- parseCellNumber (lines 33-49): `"cell 5"`, `"block 5"`, `"go to cell 5"`
(keyword mandatory), falling through to `"row 1 column 3"` whenever the
first pattern does not match or its number is out of 1..24. -/
def parseCellNumber (text : List Char) : Option Nat :=
  let n := normalize text
  match scanM cellNumAt n with
  | some num =>
    if 1 ≤ num ∧ num ≤ MAIN_COUNT then some (num - 1) else rowColFallback n
  | none => rowColFallback n

/-- The capture class `[\d\s, and]`. -/
def subClassCh (c : Char) : Bool :=
  isDigitCh c || isWS c || c = ',' || c = ' ' || c = 'a' || c = 'n' || c = 'd'

/-- `\s+([\d\s, and]+)` after the sub-cell keyword: greedy whitespace, then
the greedy class capture.  When the character after the whitespace run is not
in the class, a backtracking engine gives one whitespace character back to
the capture (capturing just that character), provided the run had length at
least two. -/
def subCellsTail (s : List Char) : Option (List Char) :=
  let w := s.takeWhile isWS
  let rest := s.dropWhile isWS
  if w = [] then none
  else
    match rest with
    | c :: _ =>
      if subClassCh c then some (rest.takeWhile subClassCh)
      else if 2 ≤ w.length then some [w.getLastD ' ']
      else none
    | [] => if 2 ≤ w.length then some [w.getLastD ' '] else none

/-- `\bselect\s+(?:sub\s+cells?|subcells?)\s+([\d\s, and]+)` at one position
(rule 6); `s?` is folded into trying `subCellsTail` after an optional `s`. -/
def subCellsAt (prev : Option Char) (s : List Char) : Option (List Char) :=
  if bStart prev s then do
    let s1 ← litCh "select".data s
    let s2 ← ws1 s1
    orElseO
      (do
        let s3 ← litCh "sub".data s2
        let s4 ← ws1 s3
        let s5 ← litCh "cell".data s4
        orElseO
          (do
            let s6 ← litCh "s".data s5
            subCellsTail s6)
          (subCellsTail s5))
      (do
        let s3 ← litCh "subcell".data s2
        orElseO
          (do
            let s4 ← litCh "s".data s3
            subCellsTail s4)
          (subCellsTail s3))
  else none

/-- Global replace of `\band\b` by a space, scanning left to right and
restarting after each replacement (`rest.replace(/\band\b/g, ' ')`). -/
def replaceAndGo (prev : Option Char) : List Char → List Char
  | [] => []
  | 'a' :: 'n' :: 'd' :: rest2 =>
    if !isWordOpt prev && bEnd rest2 then ' ' :: replaceAndGo (some 'd') rest2
    else 'a' :: replaceAndGo (some 'a') ('n' :: 'd' :: rest2)
  | c :: rest => c :: replaceAndGo (some c) rest

/-- All global matches of `\b[1-9]\b`, in order. -/
def isolatedNZGo (prev : Option Char) : List Char → List Nat
  | [] => []
  | c :: rest =>
    if !isWordOpt prev && isNZDigit c && bEnd rest then
      digitVal c :: isolatedNZGo (some c) rest
    else isolatedNZGo (some c) rest

def dedupAux : List Nat → List Nat → List Nat
  | _, [] => []
  | seen, x :: xs => if x ∈ seen then dedupAux seen xs else x :: dedupAux (x :: seen) xs

/-- `[...new Set(l)]`: deduplicate keeping first occurrences. -/
def dedupFirst (l : List Nat) : List Nat := dedupAux [] l

/-- parseSubCellList (lines 84-89): `"4, 5 and 6"` → `[3, 4, 5]`. -/
def parseSubCellList (rest : List Char) : List Nat :=
  let r1 := replaceAndGo none rest
  let r2 := r1.map fun c => if c = ',' then ' ' else c
  let numbers := isolatedNZGo none r2
  if numbers = [] then []
  else List.insertionSort (· ≤ ·) (dedupFirst (numbers.map fun x => x - 1))

/-- `\b(?:select\s+)?([1-9])\b` at one position. -/
def selDigitAt (prev : Option Char) (s : List Char) : Option Nat :=
  if bStart prev s then
    orElseO
      (do
        let s1 ← litCh "select".data s
        let s2 ← ws1 s1
        nzDigB s2)
      (nzDigB s)
  else none

/-- The positional-phrase table, in source (insertion) order. -/
def posMap : List (List Char × Nat) :=
  [("top left".data, 0), ("top center".data, 1), ("top right".data, 2),
   ("middle left".data, 3), ("center".data, 4), ("middle right".data, 5),
   ("bottom left".data, 6), ("bottom center".data, 7), ("bottom right".data, 8),
   ("left".data, 0), ("right".data, 2), ("middle".data, 4)]

/-- parseSubCellPosition (lines 13-30): first an isolated digit 1-9
(optionally preceded by "select"), clamped via `min 9 (max 1 d) - 1`; else
the first positional phrase contained in the text, in table order. -/
def parseSubCellPosition (text : List Char) : Option Nat :=
  let n := normalize text
  match scanM selDigitAt n with
  | some d => some (min 9 (max 1 d) - 1)
  | none =>
    match posMap.find? (fun p => containsStr p.1 n) with
    | some p => some p.2
    | none => none

/-- The sub-cell mutation kinds (`'toggle' | 'turnOn' | 'turnOff'`). -/
inductive SubAction where
  | toggle
  | turnOn
  | turnOff
deriving DecidableEq, Repr

/-- `\s+box\s+(?:number\s+)?([1-9])\b` after a box action word. -/
def boxTail (s : List Char) : Option Nat := do
  let s1 ← ws1 s
  let s2 ← litCh "box".data s1
  let s3 ← ws1 s2
  orElseO
    (do
      let s4 ← litCh "number".data s3
      let s5 ← ws1 s4
      nzDigB s5)
    (nzDigB s3)

/-- `\b(?:check|uncheck|toggle|mark|clear)\s+box\s+(?:number\s+)?([1-9])\b`
at one position (rule 8), returning the captured digit and the action the
code derives from the matched action word (`uncheck`/`clear` → turnOff,
`check`/`mark` → turnOn, otherwise toggle). -/
def boxAt (prev : Option Char) (s : List Char) : Option (Nat × SubAction) :=
  if bStart prev s then
    orElseO (do
      let s1 ← litCh "check".data s
      let d ← boxTail s1
      some (d, SubAction.turnOn))
    (orElseO (do
      let s1 ← litCh "uncheck".data s
      let d ← boxTail s1
      some (d, SubAction.turnOff))
    (orElseO (do
      let s1 ← litCh "toggle".data s
      let d ← boxTail s1
      some (d, SubAction.toggle))
    (orElseO (do
      let s1 ← litCh "mark".data s
      let d ← boxTail s1
      some (d, SubAction.turnOn))
    (do
      let s1 ← litCh "clear".data s
      let d ← boxTail s1
      some (d, SubAction.turnOff)))))
  else none

/-- `\btoggle\s+all\b` at one position (rule 9). -/
def toggleAllAt (prev : Option Char) (s : List Char) : Option Unit :=
  if bStart prev s then do
    let s1 ← litCh "toggle".data s
    let s2 ← ws1 s1
    let s3 ← litCh "all".data s2
    if bEnd s3 then some () else none
  else none

/-- One alternative `w\b` of a word-presence regex. -/
def word1B (w : String) (s : List Char) : Option Unit := do
  let s1 ← litCh w.data s
  if bEnd s1 then some () else none

/-- One alternative `u\s+v\b` of a word-presence regex. -/
def word2B (u v : String) (s : List Char) : Option Unit := do
  let s1 ← litCh u.data s
  let s2 ← ws1 s1
  let s3 ← litCh v.data s2
  if bEnd s3 then some () else none

/-- `\b(?:turn\s+on|mark|enable|set\s+on|check)\b` at one position. -/
def turnOnAt (prev : Option Char) (s : List Char) : Option Unit :=
  if bStart prev s then
    orElseO (word2B "turn" "on" s)
    (orElseO (word1B "mark" s)
    (orElseO (word1B "enable" s)
    (orElseO (word2B "set" "on" s) (word1B "check" s))))
  else none

/-- `\b(?:turn\s+off|clear|unmark|disable|set\s+off|uncheck)\b` at one
position. -/
def turnOffAt (prev : Option Char) (s : List Char) : Option Unit :=
  if bStart prev s then
    orElseO (word2B "turn" "off" s)
    (orElseO (word1B "clear" s)
    (orElseO (word1B "unmark" s)
    (orElseO (word1B "disable" s)
    (orElseO (word2B "set" "off" s) (word1B "uncheck" s)))))
  else none

/-! ## The VoiceCommand action type and the interpreter -/

/-- The parsed voice command (the `VoiceCommand` union of types.ts) together
with the `applyToSub` variant that the canonical parser emits even though the
declared TS union omits it.  JS `null` is `Option.none` at the
`parseVoiceCommand` level. -/
inductive VoiceCommand where
  | nextCell
  | prevCell
  | goToCell (index : Nat)
  | cellNotFound (requested : Nat)
  | selectSub (index : Nat)
  | selectSubCells (indices : List Nat)
  | applyToSub (subIndex : Nat) (action : SubAction)
  | toggle
  | turnOn
  | turnOff
deriving DecidableEq, Repr

/-- Rule 1: `next cell` / `go to next cell` / bare `next`. -/
def ruleNext (n : List Char) : Option VoiceCommand :=
  if (scanM nextCellAt n).isSome || n = "next".data then some .nextCell else none

/-- Rule 2: `previous cell` / `prev cell` / bare `previous` / `prev`. -/
def rulePrev (n : List Char) : Option VoiceCommand :=
  if (scanM prevCellAt n).isSome || n = "previous".data || n = "prev".data then
    some .prevCell
  else none

/-- Rule 3: `select block|cell [number] N` → goToCell if 1..24, else
cellNotFound with the raw number. -/
def ruleSelectCell (n : List Char) : Option VoiceCommand :=
  match scanM selectCellAt n with
  | some requested =>
    if 1 ≤ requested ∧ requested ≤ MAIN_COUNT then some (.goToCell (requested - 1))
    else some (.cellNotFound requested)
  | none => none

/-- Rule 4: `toggle cell <digit or word>` → applyToSub with the defensive
clamp `Math.max(0, Math.min(8, num - 1))`. -/
def ruleToggleCell (n : List Char) : Option VoiceCommand :=
  match scanM toggleCellAt n with
  | some num => some (.applyToSub (max 0 (min 8 (num - 1))) .toggle)
  | none => none

/-- Rule 5: the general cell-number resolver (on the raw transcript). -/
def ruleGoToCell (transcript : List Char) : Option VoiceCommand :=
  match parseCellNumber transcript with
  | some i => some (.goToCell i)
  | none => none

/-- Rule 6: `select sub cell(s) <list>`; falls through when the parsed list
is empty. -/
def ruleSubCells (n : List Char) : Option VoiceCommand :=
  match scanM subCellsAt n with
  | some cap =>
    let indices := parseSubCellList cap
    if indices ≠ [] then some (.selectSubCells indices) else none
  | none => none

/-- Rule 7: any text containing `select`, resolved through the sub-cell
position lexicon (on the raw transcript). -/
def ruleSelectSub (transcript n : List Char) : Option VoiceCommand :=
  if containsStr "select".data n then
    match parseSubCellPosition transcript with
    | some i => some (.selectSub i)
    | none => none
  else none

/-- Rule 8: `check|uncheck|toggle|mark|clear box [number] <1-9>`. -/
def ruleBox (n : List Char) : Option VoiceCommand :=
  match scanM boxAt n with
  | some (d, act) => some (.applyToSub (d - 1) act)
  | none => none

/-- Rule 9: `toggle all`. -/
def ruleToggleAll (n : List Char) : Option VoiceCommand :=
  if (scanM toggleAllAt n).isSome then some .toggle else none

/-- Rule 10: presence of `turn on|mark|enable|set on|check`. -/
def ruleTurnOn (n : List Char) : Option VoiceCommand :=
  if (scanM turnOnAt n).isSome then some .turnOn else none

/-- Rule 11: presence of `turn off|clear|unmark|disable|set off|uncheck`. -/
def ruleTurnOff (n : List Char) : Option VoiceCommand :=
  if (scanM turnOffAt n).isSome then some .turnOff else none

/-- First early `return` wins, as in the JS rule cascade. -/
def firstSome {α : Type} : List (Option α) → Option α
  | [] => none
  | some a :: _ => some a
  | none :: rest => firstSome rest

/-- parseVoiceCommand (canonical parser, lines 51-123): the ordered rules,
first match wins.  The JS guard `if (!transcript || typeof transcript !==
'string') return null` is the empty-string test in this typed embedding. -/
def parseVoiceCommand (transcript : String) : Option VoiceCommand :=
  if transcript = "" then none
  else
    let n := normalize transcript.data
    firstSome
      [ruleNext n, rulePrev n, ruleSelectCell n, ruleToggleCell n,
       ruleGoToCell transcript.data, ruleSubCells n,
       ruleSelectSub transcript.data n, ruleBox n, ruleToggleAll n,
       ruleTurnOn n, ruleTurnOff n]

/-! ## Grid state reducer (useGridState.ts) and dispatcher (App.tsx) -/

/-- 24 cells, each a list of 9 booleans. -/
abbrev Grid := List (List Bool)

/-- GridFocus (types.ts).  Indices are `Int` because the dispatcher computes
`activeCellIndex ± 1` before clamping. -/
structure GridFocus where
  activeCellIndex : Int
  focusedSubIndex : Option Int
  selectedSubIndices : List Int
deriving DecidableEq, Repr

/-- setActiveCell (useGridState.ts lines 22-25): clamp into
`[0, MAIN_COUNT - 1]` and reset focused/selected sub-indices. -/
def setActiveCell (index : Int) (f : GridFocus) : GridFocus :=
  let clamped := max 0 (min ((MAIN_COUNT : Int) - 1) index)
  { f with activeCellIndex := clamped, focusedSubIndex := none,
           selectedSubIndices := [] }

/-- setFocusedSub (lines 27-30): out-of-range non-null sub-index is ignored. -/
def setFocusedSub (subIndex : Option Int) (f : GridFocus) : GridFocus :=
  match subIndex with
  | some i =>
    if i < 0 ∨ (SUB_PER_CELL : Int) ≤ i then f else { f with focusedSubIndex := some i }
  | none => { f with focusedSubIndex := none }

/-- setSelectedSubIndices (lines 32-35): keep only indices in range. -/
def setSelectedSubIndices (indices : List Int) (f : GridFocus) : GridFocus :=
  { f with selectedSubIndices :=
      indices.filter fun i => 0 ≤ i && i < (SUB_PER_CELL : Int) }

/-- toggleSub (lines 37-44): `value ?? !v` at the addressed sub-cell. -/
def toggleSub (cellIndex subIndex : Int) (value : Option Bool) (g : Grid) : Grid :=
  g.mapIdx fun i row =>
    if (i : Int) = cellIndex then
      row.mapIdx fun j v => if (j : Int) = subIndex then value.getD (!v) else v
    else row

/-- `type === 'toggle' ? undefined : type === 'turnOn'`. -/
def applyNext : SubAction → Option Bool
  | .toggle => none
  | .turnOn => some true
  | .turnOff => some false

/-- applyVoiceCommand (lines 52-67): whole cell when no sub is focused,
otherwise just the focused sub-cell. -/
def applyVoiceCommand (cellIndex : Int) (subIndex : Option Int) (type : SubAction)
    (g : Grid) : Grid :=
  match subIndex with
  | none =>
    (List.range SUB_PER_CELL).foldl
      (fun g' i => toggleSub cellIndex (i : Int) (applyNext type) g') g
  | some si => toggleSub cellIndex si (applyNext type) g

/-- The app state that handleVoiceCommand touches: grid, focus, flash and
the two feedback messages. -/
structure AppState where
  grid : Grid
  focus : GridFocus
  lastCommandFlash : Bool
  unrecognizedMessage : Option String
  cellNotFoundMessage : Option String
deriving DecidableEq, Repr

def notUnderstoodMsg : String :=
  "Command not understood. Try \"next cell\", \"select center\", \"toggle\"."

def cellNotFoundMsg (requested : Nat) : String :=
  "Cell " ++ toString requested ++ " not found. Cells are 1 to " ++
    toString MAIN_COUNT ++ "."

/-- handleVoiceCommand (App.tsx lines 131-185): dispatch one parsed command
against the app state.  `triggerCommandFlash` is modelled as setting the
flash flag; the timeout-driven clearing of messages and of the flash is a
delayed effect outside this step function.  A command the switch does not
declare (in particular `applyToSub`) hits the `default:` branch and leaves
the state untouched. -/
def handleVoiceCommand (cmd : Option VoiceCommand) (transcript : String)
    (s : AppState) : AppState :=
  match cmd with
  | none =>
    if trimWS transcript.data ≠ [] then
      { s with unrecognizedMessage := some notUnderstoodMsg }
    else s
  | some c =>
    match c with
    | .nextCell =>
      { s with focus := setActiveCell (s.focus.activeCellIndex + 1) s.focus,
               lastCommandFlash := true }
    | .prevCell =>
      { s with focus := setActiveCell (s.focus.activeCellIndex - 1) s.focus,
               lastCommandFlash := true }
    | .goToCell i =>
      { s with focus := setActiveCell (i : Int) s.focus, lastCommandFlash := true }
    | .cellNotFound r =>
      { s with cellNotFoundMessage := some (cellNotFoundMsg r) }
    | .selectSub i =>
      { s with focus := setFocusedSub (some (i : Int)) s.focus,
               lastCommandFlash := true }
    | .selectSubCells l =>
      { s with focus := setSelectedSubIndices (l.map fun i => (i : Int)) s.focus,
               lastCommandFlash := true }
    | .toggle =>
      { s with grid := applyVoiceCommand s.focus.activeCellIndex
                 s.focus.focusedSubIndex .toggle s.grid,
               lastCommandFlash := true }
    | .turnOn =>
      { s with grid := applyVoiceCommand s.focus.activeCellIndex
                 s.focus.focusedSubIndex .turnOn s.grid,
               lastCommandFlash := true }
    | .turnOff =>
      { s with grid := applyVoiceCommand s.focus.activeCellIndex
                 s.focus.focusedSubIndex .turnOff s.grid,
               lastCommandFlash := true }
    | .applyToSub _ _ => s

/-! ## Well-formedness of emitted actions -/

/-- The spec's invariant on emitted actions: indices in declared ranges
(`Nat` makes the lower bounds automatic), `cellNotFound.requested` exempt. -/
def wellFormedAction : VoiceCommand → Prop
  | .goToCell i => i ≤ 23
  | .selectSub i => i ≤ 8
  | .applyToSub i _ => i ≤ 8
  | .selectSubCells l => ∀ i ∈ l, i ≤ 8
  | _ => True

/-- `selectSubCells` payloads are strictly ascending (sorted, duplicate
free); trivial for the other variants. -/
def sortedSubCells : VoiceCommand → Prop
  | .selectSubCells l => l.Pairwise (· < ·)
  | _ => True

/-- Decimal rendering of a number below 100 (the spoken cell numbers the
grammar accepts are at most two digits). -/
def digitCh (d : Nat) : Char := Char.ofNat (48 + d)

def natToStr2 (n : Nat) : String :=
  if n < 10 then String.mk [digitCh n]
  else String.mk [digitCh (n / 10), digitCh (n % 10)]

/-! ## Range and sortedness lemmas -/

theorem orElseO_eq_some {α : Type} {a b : Option α} {x : α}
    (h : orElseO a b = some x) : a = some x ∨ b = some x := by
  cases a with
  | none => exact Or.inr h
  | some y => exact Or.inl h

theorem nzDigB_le {s : List Char} {v : Nat} (h : nzDigB s = some v) :
    1 ≤ v ∧ v ≤ 9 := by
  match s with
  | [] => simp [nzDigB] at h
  | d :: rest =>
    simp only [nzDigB] at h
    split at h
    · rename_i hd
      cases h
      have h1 : isNZDigit d = true := ((Bool.and_eq_true _ _).mp hd).1
      simp only [isNZDigit, Bool.and_eq_true, decide_eq_true_eq] at h1
      simp only [digitVal]
      omega
    · cases h

/-- Transport a property of a matcher's outputs through the leftmost scan. -/
theorem scanP_prop {α : Type} {P : α → Prop} {m : Option Char → List Char → Option α}
    (hm : ∀ prev s v, m prev s = some v → P v) :
    ∀ (prev : Option Char) (s : List Char) (v : α), scanP m prev s = some v → P v := by
  intro prev s
  induction s generalizing prev with
  | nil => exact fun v h => hm _ _ _ h
  | cons c rest ih =>
    intro v h
    rw [scanP] at h
    cases hm0 : m prev (c :: rest) with
    | some w => rw [hm0] at h; cases h; exact hm _ _ _ hm0
    | none => rw [hm0] at h; exact ih (some c) v h

theorem scanM_prop {α : Type} {P : α → Prop} {m : Option Char → List Char → Option α}
    (hm : ∀ prev s v, m prev s = some v → P v)
    {s : List Char} {v : α} (h : scanM m s = some v) : P v :=
  scanP_prop hm none s v h

theorem bindO_eq_some {α β : Type} {x : Option α} {f : α → Option β} {b : β} :
    (x >>= f) = some b ↔ ∃ a, x = some a ∧ f a = some b := by
  cases x <;> simp

theorem boxTail_le {s : List Char} {v : Nat} (h : boxTail s = some v) :
    1 ≤ v ∧ v ≤ 9 := by
  simp only [boxTail, bindO_eq_some] at h
  obtain ⟨s1, _, s2, _, s3, _, h4⟩ := h
  rcases orElseO_eq_some h4 with h5 | h5
  · simp only [bindO_eq_some] at h5
    obtain ⟨s4, _, s5, _, h6⟩ := h5
    exact nzDigB_le h6
  · exact nzDigB_le h5

theorem boxAt_le :
    ∀ (prev : Option Char) (s : List Char) (p : Nat × SubAction),
      boxAt prev s = some p → 1 ≤ p.1 ∧ p.1 ≤ 9 := by
  intro prev s p h
  simp only [boxAt] at h
  split at h
  · rcases orElseO_eq_some h with h1 | h1
    · simp only [bindO_eq_some] at h1
      obtain ⟨s1, _, d, hd, he⟩ := h1
      cases he
      exact boxTail_le hd
    · rcases orElseO_eq_some h1 with h2 | h2
      · simp only [bindO_eq_some] at h2
        obtain ⟨s1, _, d, hd, he⟩ := h2
        cases he
        exact boxTail_le hd
      · rcases orElseO_eq_some h2 with h3 | h3
        · simp only [bindO_eq_some] at h3
          obtain ⟨s1, _, d, hd, he⟩ := h3
          cases he
          exact boxTail_le hd
        · rcases orElseO_eq_some h3 with h4 | h4
          · simp only [bindO_eq_some] at h4
            obtain ⟨s1, _, d, hd, he⟩ := h4
            cases he
            exact boxTail_le hd
          · simp only [bindO_eq_some] at h4
            obtain ⟨s1, _, d, hd, he⟩ := h4
            cases he
            exact boxTail_le hd
  · cases h

theorem isolatedNZGo_mem {v : Nat} :
    ∀ (prev : Option Char) (l : List Char), v ∈ isolatedNZGo prev l → 1 ≤ v ∧ v ≤ 9 := by
  intro prev l
  induction l generalizing prev with
  | nil => intro h; simp [isolatedNZGo] at h
  | cons c rest ih =>
    intro h
    rw [isolatedNZGo] at h
    split at h
    · rename_i hcond
      rcases List.mem_cons.mp h with rfl | h2
      · have h1 : isNZDigit c = true :=
          (Bool.and_eq_true _ _).mp (((Bool.and_eq_true _ _).mp hcond).1) |>.2
        simp only [isNZDigit, Bool.and_eq_true, decide_eq_true_eq] at h1
        simp only [digitVal]
        omega
      · exact ih _ h2
    · exact ih _ h

theorem dedupAux_mem {x : Nat} :
    ∀ (seen l : List Nat), x ∈ dedupAux seen l → x ∈ l := by
  intro seen l
  induction l generalizing seen with
  | nil => intro h; simp [dedupAux] at h
  | cons y ys ih =>
    intro h
    rw [dedupAux] at h
    split at h
    · exact List.mem_cons_of_mem _ (ih _ h)
    · rcases List.mem_cons.mp h with rfl | h2
      · exact List.mem_cons_self _ _
      · exact List.mem_cons_of_mem _ (ih _ h2)

theorem dedupAux_nodup :
    ∀ (seen l : List Nat), (dedupAux seen l).Nodup ∧ ∀ x ∈ dedupAux seen l, x ∉ seen := by
  intro seen l
  induction l generalizing seen with
  | nil => exact ⟨List.nodup_nil, by intro x h; simp [dedupAux] at h⟩
  | cons y ys ih =>
    rw [dedupAux]
    split
    · rename_i hy
      exact ⟨(ih seen).1, (ih seen).2⟩
    · rename_i hy
      obtain ⟨hnd, hout⟩ := ih (y :: seen)
      refine ⟨List.nodup_cons.mpr ⟨fun hmem => ?_, hnd⟩, ?_⟩
      · exact hout y hmem (List.mem_cons_self _ _)
      · intro x hx
        rcases List.mem_cons.mp hx with rfl | h2
        · exact hy
        · intro hseen
          exact hout x h2 (List.mem_cons_of_mem _ hseen)

theorem dedupFirst_nodup (l : List Nat) : (dedupFirst l).Nodup :=
  (dedupAux_nodup [] l).1

theorem parseSubCellList_le {r : List Char} {i : Nat}
    (h : i ∈ parseSubCellList r) : i ≤ 8 := by
  simp only [parseSubCellList] at h
  split at h
  · simp at h
  · have hperm := List.perm_insertionSort (· ≤ ·)
      (dedupFirst ((isolatedNZGo none
        ((replaceAndGo none r).map fun c => if c = ',' then ' ' else c)).map fun x => x - 1))
    have h2 := hperm.mem_iff.mp h
    have h3 := dedupAux_mem _ _ h2
    rcases List.mem_map.mp h3 with ⟨x, hx, rfl⟩
    have := isolatedNZGo_mem _ _ hx
    omega

theorem parseSubCellList_sorted (r : List Char) :
    (parseSubCellList r).Pairwise (· < ·) := by
  simp only [parseSubCellList]
  split
  · exact List.Pairwise.nil
  · have hsorted := List.sorted_insertionSort (· ≤ ·)
      (dedupFirst ((isolatedNZGo none
        ((replaceAndGo none r).map fun c => if c = ',' then ' ' else c)).map fun x => x - 1))
    have hperm := List.perm_insertionSort (· ≤ ·)
      (dedupFirst ((isolatedNZGo none
        ((replaceAndGo none r).map fun c => if c = ',' then ' ' else c)).map fun x => x - 1))
    have hnodup := hperm.nodup_iff.mpr (dedupFirst_nodup _)
    exact List.Sorted.lt_of_le hsorted hnodup

theorem parseSubCellPosition_le {t : List Char} {i : Nat}
    (h : parseSubCellPosition t = some i) : i ≤ 8 := by
  simp only [parseSubCellPosition] at h
  cases hd : scanM selDigitAt (normalize t) with
  | some d =>
    rw [hd] at h
    cases h
    have := Nat.min_le_left 9 (max 1 d)
    omega
  | none =>
    rw [hd] at h
    cases hf : posMap.find? (fun p => containsStr p.1 (normalize t)) with
    | some p =>
      rw [hf] at h
      cases h
      have hmem := List.mem_of_find?_eq_some hf
      have hall : ∀ q ∈ posMap, q.2 ≤ 8 := by decide
      exact hall p hmem
    | none => rw [hf] at h; cases h

theorem rowColFallback_le {n : List Char} {i : Nat}
    (h : rowColFallback n = some i) : i ≤ 23 := by
  cases hs : scanM rowColAt n with
  | none => simp only [rowColFallback, hs] at h; cases h
  | some rc =>
    obtain ⟨row, col⟩ := rc
    simp only [rowColFallback, hs] at h
    by_cases hc : 1 ≤ row ∧ row ≤ 2 ∧ 1 ≤ col ∧ col ≤ 12
    · rw [if_pos hc] at h
      cases h
      omega
    · rw [if_neg hc] at h
      cases h

theorem parseCellNumber_le {t : List Char} {i : Nat}
    (h : parseCellNumber t = some i) : i ≤ 23 := by
  cases hs : scanM cellNumAt (normalize t) with
  | none =>
    simp only [parseCellNumber, hs] at h
    exact rowColFallback_le h
  | some num =>
    simp only [parseCellNumber, hs] at h
    by_cases hc : 1 ≤ num ∧ num ≤ MAIN_COUNT
    · rw [if_pos hc] at h
      cases h
      simp only [MAIN_COUNT, MAIN_COLS, MAIN_ROWS] at hc
      omega
    · rw [if_neg hc] at h
      exact rowColFallback_le h

/-! ## Per-rule output well-formedness -/

theorem ruleNext_ok {n : List Char} {a : VoiceCommand} (h : ruleNext n = some a) :
    wellFormedAction a ∧ sortedSubCells a := by
  unfold ruleNext at h
  split at h
  · cases h; exact ⟨trivial, trivial⟩
  · cases h

theorem rulePrev_ok {n : List Char} {a : VoiceCommand} (h : rulePrev n = some a) :
    wellFormedAction a ∧ sortedSubCells a := by
  unfold rulePrev at h
  split at h
  · cases h; exact ⟨trivial, trivial⟩
  · cases h

theorem ruleSelectCell_ok {n : List Char} {a : VoiceCommand}
    (h : ruleSelectCell n = some a) : wellFormedAction a ∧ sortedSubCells a := by
  cases hs : scanM selectCellAt n with
  | none => simp only [ruleSelectCell, hs] at h; cases h
  | some requested =>
    simp only [ruleSelectCell, hs] at h
    by_cases hc : 1 ≤ requested ∧ requested ≤ MAIN_COUNT
    · rw [if_pos hc] at h
      cases h
      refine ⟨?_, trivial⟩
      simp only [wellFormedAction]
      simp only [MAIN_COUNT, MAIN_COLS, MAIN_ROWS] at hc
      omega
    · rw [if_neg hc] at h
      cases h
      exact ⟨trivial, trivial⟩

theorem ruleToggleCell_ok {n : List Char} {a : VoiceCommand}
    (h : ruleToggleCell n = some a) : wellFormedAction a ∧ sortedSubCells a := by
  unfold ruleToggleCell at h
  cases hs : scanM toggleCellAt n with
  | none => rw [hs] at h; cases h
  | some num =>
    rw [hs] at h
    cases h
    refine ⟨?_, trivial⟩
    simp only [wellFormedAction]
    exact Nat.max_le.mpr ⟨by omega, Nat.min_le_left 8 _⟩

theorem ruleGoToCell_ok {t : List Char} {a : VoiceCommand}
    (h : ruleGoToCell t = some a) : wellFormedAction a ∧ sortedSubCells a := by
  unfold ruleGoToCell at h
  cases hs : parseCellNumber t with
  | none => rw [hs] at h; cases h
  | some i =>
    rw [hs] at h
    cases h
    exact ⟨parseCellNumber_le hs, trivial⟩

theorem ruleSubCells_ok {n : List Char} {a : VoiceCommand}
    (h : ruleSubCells n = some a) : wellFormedAction a ∧ sortedSubCells a := by
  cases hs : scanM subCellsAt n with
  | none => simp only [ruleSubCells, hs] at h; cases h
  | some cap =>
    simp only [ruleSubCells, hs] at h
    by_cases hc : parseSubCellList cap ≠ []
    · rw [if_pos hc] at h
      cases h
      exact ⟨fun i hi => parseSubCellList_le hi, parseSubCellList_sorted cap⟩
    · rw [if_neg hc] at h
      cases h

theorem ruleSelectSub_ok {t n : List Char} {a : VoiceCommand}
    (h : ruleSelectSub t n = some a) : wellFormedAction a ∧ sortedSubCells a := by
  unfold ruleSelectSub at h
  split at h
  · cases hs : parseSubCellPosition t with
    | none => rw [hs] at h; cases h
    | some i =>
      rw [hs] at h
      cases h
      exact ⟨parseSubCellPosition_le hs, trivial⟩
  · cases h

theorem ruleBox_ok {n : List Char} {a : VoiceCommand}
    (h : ruleBox n = some a) : wellFormedAction a ∧ sortedSubCells a := by
  unfold ruleBox at h
  cases hs : scanM boxAt n with
  | none => rw [hs] at h; cases h
  | some p =>
    rw [hs] at h
    obtain ⟨d, act⟩ := p
    cases h
    have := scanM_prop boxAt_le hs
    refine ⟨?_, trivial⟩
    simp only [wellFormedAction]
    omega


theorem ruleToggleAll_ok {n : List Char} {a : VoiceCommand}
    (h : ruleToggleAll n = some a) : wellFormedAction a ∧ sortedSubCells a := by
  unfold ruleToggleAll at h
  split at h
  · cases h; exact ⟨trivial, trivial⟩
  · cases h

theorem ruleTurnOn_ok {n : List Char} {a : VoiceCommand}
    (h : ruleTurnOn n = some a) : wellFormedAction a ∧ sortedSubCells a := by
  unfold ruleTurnOn at h
  split at h
  · cases h; exact ⟨trivial, trivial⟩
  · cases h

theorem ruleTurnOff_ok {n : List Char} {a : VoiceCommand}
    (h : ruleTurnOff n = some a) : wellFormedAction a ∧ sortedSubCells a := by
  unfold ruleTurnOff at h
  split at h
  · cases h; exact ⟨trivial, trivial⟩
  · cases h

theorem firstSome_mem {α : Type} :
    ∀ {l : List (Option α)} {a : α}, firstSome l = some a → some a ∈ l := by
  intro l
  induction l with
  | nil => intro a h; simp [firstSome] at h
  | cons o rest ih =>
    intro a h
    cases o with
    | some b => rw [firstSome] at h; cases h; exact List.mem_cons_self _ _
    | none => rw [firstSome] at h; exact List.mem_cons_of_mem _ (ih h)

/-- Every action the interpreter emits satisfies the range invariant and,
for `selectSubCells`, strict sortedness of the payload. -/
theorem parse_ok {s : String} {a : VoiceCommand}
    (h : parseVoiceCommand s = some a) : wellFormedAction a ∧ sortedSubCells a := by
  unfold parseVoiceCommand at h
  split at h
  · cases h
  · have hm := firstSome_mem h
    simp only [List.mem_cons, List.not_mem_nil, or_false] at hm
    rcases hm with h1 | h1 | h1 | h1 | h1 | h1 | h1 | h1 | h1 | h1 | h1
    · exact ruleNext_ok h1.symm
    · exact rulePrev_ok h1.symm
    · exact ruleSelectCell_ok h1.symm
    · exact ruleToggleCell_ok h1.symm
    · exact ruleGoToCell_ok h1.symm
    · exact ruleSubCells_ok h1.symm
    · exact ruleSelectSub_ok h1.symm
    · exact ruleBox_ok h1.symm
    · exact ruleToggleAll_ok h1.symm
    · exact ruleTurnOn_ok h1.symm
    · exact ruleTurnOff_ok h1.symm

/-! ## Claim theorems -/

/-- C1: for every integer n with 1 ≤ n ≤ 24, interpreting the utterance
"select cell {n}" yields GoToCell (n - 1); in particular "select cell 5"
yields GoToCell 4 and is never interpreted as a SelectSub action (rule 3
takes priority over rule 7). -/
theorem c1_select_cell_in_range :
    (∀ n : Nat, 1 ≤ n → n ≤ 24 →
      parseVoiceCommand ("select cell " ++ natToStr2 n) =
        some (VoiceCommand.goToCell (n - 1))) ∧
    ∀ i : Nat, parseVoiceCommand "select cell 5" ≠ some (VoiceCommand.selectSub i) := by
  constructor
  · intro n h1 h2
    interval_cases n <;> decide
  · intro i h
    rw [show parseVoiceCommand "select cell 5" = some (VoiceCommand.goToCell 4) from
      by decide] at h
    simp at h

/-- Witness for C1, at n = 5. -/
theorem c1_select_cell_in_range_witness :
    parseVoiceCommand ("select cell " ++ natToStr2 5) =
      some (VoiceCommand.goToCell 4) :=
  c1_select_cell_in_range.1 5 (by decide) (by decide)

/-- C2 counterexample: "select cell 100" is not read as CellNotFound 100 —
the `\d{1,2}` capture caps spoken cell numbers at two digits, so the
utterance matches no rule at all and yields None. -/
theorem c2_counterexample_three_digits :
    parseVoiceCommand "select cell 100" = none ∧
    parseVoiceCommand "select cell 100" ≠ some (VoiceCommand.cellNotFound 100) := by
  refine ⟨by decide, ?_⟩
  intro h
  rw [show parseVoiceCommand "select cell 100" = none from by decide] at h
  cases h

/-- C2 (amended): for every n of at most two digits (n ≤ 99) outside 1..24,
interpreting "select cell {n}" yields CellNotFound n, carrying the raw
out-of-range spoken number unchanged. -/
theorem c2_out_of_range_cellNotFound :
    ∀ n : Nat, n ≤ 99 → (n = 0 ∨ 25 ≤ n) →
      parseVoiceCommand ("select cell " ++ natToStr2 n) =
        some (VoiceCommand.cellNotFound n) := by
  intro n h1 h2
  rcases h2 with rfl | h2
  · decide
  · interval_cases n <;> decide

/-- Witness for C2, at n = 25. -/
theorem c2_out_of_range_cellNotFound_witness :
    parseVoiceCommand ("select cell " ++ natToStr2 25) =
      some (VoiceCommand.cellNotFound 25) :=
  c2_out_of_range_cellNotFound 25 (by decide) (by decide)

/-- C3 counterexample: the cell-number resolver does not accept a bare
number — the utterance "5" yields None, not GoToCell 4 (the canonical
parseCellNumber requires the cell/block keyword). -/
theorem c3_counterexample_bare_number :
    parseVoiceCommand "5" = none ∧
    parseVoiceCommand "5" ≠ some (VoiceCommand.goToCell 4) := by
  refine ⟨by decide, ?_⟩
  intro h
  rw [show parseVoiceCommand "5" = none from by decide] at h
  cases h

/-- C3 (amended): the cell-number resolver requires the cell/block keyword:
for every n in 1..24, "cell {n}" yields GoToCell (n - 1), while the bare
number "{n}" yields None. -/
theorem c3_keyword_required :
    ∀ n : Nat, 1 ≤ n → n ≤ 24 →
      parseVoiceCommand ("cell " ++ natToStr2 n) =
        some (VoiceCommand.goToCell (n - 1)) ∧
      parseVoiceCommand (natToStr2 n) = none := by
  intro n h1 h2
  interval_cases n <;> exact ⟨by decide, by decide⟩

/-- Witness for C3, at n = 5. -/
theorem c3_keyword_required_witness :
    parseVoiceCommand ("cell " ++ natToStr2 5) = some (VoiceCommand.goToCell 4) ∧
    parseVoiceCommand (natToStr2 5) = none :=
  c3_keyword_required 5 (by decide) (by decide)

/-- C4 counterexample: with the singular "sub cell", the earlier general
cell-number rule intercepts the substring "cell 6", so "select sub cell
6 5 4" yields GoToCell 5, not SelectSubCells [3, 4, 5]. -/
theorem c4_counterexample_singular :
    parseVoiceCommand "select sub cell 6 5 4" = some (VoiceCommand.goToCell 5) ∧
    parseVoiceCommand "select sub cell 6 5 4" ≠
      some (VoiceCommand.selectSubCells [3, 4, 5]) := by
  refine ⟨by decide, ?_⟩
  intro h
  rw [show parseVoiceCommand "select sub cell 6 5 4" =
      some (VoiceCommand.goToCell 5) from by decide] at h
  simp at h

/-- C4 (amended): with the plural keyword, "select sub cells 4, 5 and 6"
and "select sub cells 6 5 4" both yield SelectSubCells [3, 4, 5] (order-
and duplicate-independent), and every SelectSubCells action the interpreter
emits carries a strictly ascending (sorted, duplicate-free) index list. -/
theorem c4_sub_cells_sorted :
    parseVoiceCommand "select sub cells 4, 5 and 6" =
      some (VoiceCommand.selectSubCells [3, 4, 5]) ∧
    parseVoiceCommand "select sub cells 6 5 4" =
      some (VoiceCommand.selectSubCells [3, 4, 5]) ∧
    ∀ (s : String) (l : List Nat),
      parseVoiceCommand s = some (VoiceCommand.selectSubCells l) →
        l.Pairwise (· < ·) :=
  ⟨by decide, by decide, fun _ _ h => (parse_ok h).2⟩

/-- Witness for C4, on "select sub cells 2 1". -/
theorem c4_sub_cells_sorted_witness : List.Pairwise (· < ·) [0, 1] :=
  c4_sub_cells_sorted.2.2 "select sub cells 2 1" [0, 1] (by decide)

/-- C5: "toggle cell five" and "toggle cell 5" both yield
ApplyToSub 4 Toggle; in general each digit 1-9 and each number word
one..nine yields ApplyToSub (clamp (n-1) 0 8) Toggle rather than navigating
to cell n. -/
theorem c5_toggle_cell :
    parseVoiceCommand "toggle cell five" =
      some (VoiceCommand.applyToSub 4 SubAction.toggle) ∧
    parseVoiceCommand "toggle cell 5" =
      some (VoiceCommand.applyToSub 4 SubAction.toggle) ∧
    (∀ n : Nat, 1 ≤ n → n ≤ 9 →
      parseVoiceCommand ("toggle cell " ++ natToStr2 n) =
        some (VoiceCommand.applyToSub (max 0 (min 8 (n - 1))) SubAction.toggle)) ∧
    ∀ p ∈ [("one", 1), ("two", 2), ("three", 3), ("four", 4), ("five", 5),
           ("six", 6), ("seven", 7), ("eight", 8), ("nine", 9)],
      parseVoiceCommand ("toggle cell " ++ p.1) =
        some (VoiceCommand.applyToSub (max 0 (min 8 (p.2 - 1))) SubAction.toggle) := by
  refine ⟨by decide, by decide, ?_, by decide⟩
  intro n h1 h2
  interval_cases n <;> decide

/-- Witness for C5, at n = 5. -/
theorem c5_toggle_cell_witness :
    parseVoiceCommand ("toggle cell " ++ natToStr2 5) =
      some (VoiceCommand.applyToSub (max 0 (min 8 (5 - 1))) SubAction.toggle) :=
  c5_toggle_cell.2.2.1 5 (by decide) (by decide)

/-- C6: "select center" yields SelectSub 4 and "select top right" yields
SelectSub 2; the positional table is consulted in its fixed order, so
"select top left" resolves to 0 via the phrase "top left" and "select
middle right" resolves to 5, not 2 via "right". -/
theorem c6_positional_table :
    parseVoiceCommand "select center" = some (VoiceCommand.selectSub 4) ∧
    parseVoiceCommand "select top right" = some (VoiceCommand.selectSub 2) ∧
    parseVoiceCommand "select top left" = some (VoiceCommand.selectSub 0) ∧
    parseVoiceCommand "select middle right" = some (VoiceCommand.selectSub 5) :=
  ⟨by decide, by decide, by decide, by decide⟩

/-- C7: the interpreter is total (a Lean function) and every action it
emits carries only in-range indices — GoToCell in 0..23, SelectSub,
ApplyToSub and each SelectSubCells element in 0..8 — with only
CellNotFound.requested exempt (it carries the raw spoken number). -/
theorem c7_interpreter_wellformed :
    ∀ (s : String) (a : VoiceCommand),
      parseVoiceCommand s = some a → wellFormedAction a :=
  fun _ _ h => (parse_ok h).1

/-- Witness for C7, on "select cell 5". -/
theorem c7_interpreter_wellformed_witness :
    wellFormedAction (VoiceCommand.goToCell 4) :=
  c7_interpreter_wellformed "select cell 5" (VoiceCommand.goToCell 4) (by decide)

/-- C8: interpreting the empty string or a whitespace-only string yields
None, and the interpreter is deterministic — equal inputs yield equal
actions.  (The JS non-string guard is outside this typed embedding.) -/
theorem c8_empty_none :
    parseVoiceCommand "" = none ∧
    parseVoiceCommand "   " = none ∧
    ∀ s t : String, s = t → parseVoiceCommand s = parseVoiceCommand t :=
  ⟨by decide, by decide, fun _ _ h => by rw [h]⟩

/-- Witness for C8, on "toggle all". -/
theorem c8_empty_none_witness :
    parseVoiceCommand "toggle all" = parseVoiceCommand "toggle all" :=
  c8_empty_none.2.2 "toggle all" "toggle all" rfl

/-- C9: setActiveCell clamps the requested index into [0, 23] and resets
focus — activeCellIndex = max 0 (min 23 index), focusedSubIndex = none,
selectedSubIndices = [] — so focus is cleared after every NextCell,
PrevCell and GoToCell dispatch. -/
theorem c9_setActiveCell_clamps_resets :
    (∀ (idx : Int) (f : GridFocus),
      (setActiveCell idx f).activeCellIndex = max 0 (min 23 idx) ∧
      (setActiveCell idx f).focusedSubIndex = none ∧
      (setActiveCell idx f).selectedSubIndices = []) ∧
    ∀ (s : AppState) (tr : String),
      ((handleVoiceCommand (some VoiceCommand.nextCell) tr s).focus.focusedSubIndex = none ∧
       (handleVoiceCommand (some VoiceCommand.nextCell) tr s).focus.selectedSubIndices = []) ∧
      ((handleVoiceCommand (some VoiceCommand.prevCell) tr s).focus.focusedSubIndex = none ∧
       (handleVoiceCommand (some VoiceCommand.prevCell) tr s).focus.selectedSubIndices = []) ∧
      ∀ i : Nat,
        (handleVoiceCommand (some (VoiceCommand.goToCell i)) tr s).focus.focusedSubIndex =
          none ∧
        (handleVoiceCommand (some (VoiceCommand.goToCell i)) tr s).focus.selectedSubIndices =
          [] :=
  ⟨fun _ _ => ⟨rfl, rfl, rfl⟩,
   fun _ _ => ⟨⟨rfl, rfl⟩, ⟨rfl, rfl⟩, fun _ => ⟨rfl, rfl⟩⟩⟩

/-- C10: an ApplyToSub action — produced by the canonical parser for
"toggle cell 5" and "check box 3" — hits the dispatcher's default switch
case (the VoiceCommand union declares no applyToSub variant) and performs
no state change at all: grid, focus and feedback messages are untouched. -/
theorem c10_applyToSub_noop :
    parseVoiceCommand "toggle cell 5" =
      some (VoiceCommand.applyToSub 4 SubAction.toggle) ∧
    parseVoiceCommand "check box 3" =
      some (VoiceCommand.applyToSub 2 SubAction.turnOn) ∧
    ∀ (i : Nat) (a : SubAction) (tr : String) (s : AppState),
      handleVoiceCommand (some (VoiceCommand.applyToSub i a)) tr s = s :=
  ⟨by decide, by decide, fun _ _ _ _ => rfl⟩

end VoiceGrid
